import Mathlib

/-!
Shallow embedding of `src/packages/arb-avm-cpp/avm/src/checkpointstorage.cpp`
(class `CheckpointStorage`): a reference-counted, content-addressed store
layered over a transactional key-value engine (RocksDB).

Keys (`std::vector<unsigned char>`) and values (`std::string`) are byte
sequences, modelled as `List Nat`.  The C++ `int` reference count is modelled
as `Int`; the 4-byte on-disk framing applies the reduction mod `2 ^ 32`
exactly where the `memcpy` of the machine integer does (little-endian, as on
the x86 machines this code targets).  The engine database is modelled as a
partial map from keys to raw record bytes; engine calls that can fail
(`Get`, transaction commit) are additionally modelled by result functions
that take the engine status as an explicit argument, so that the code's
handling of engine failures can be stated.
-/

namespace CheckpointStorage

/-- Engine statuses (`rocksdb::Status`) distinguishable in this development:
the two kinds the code constructs itself (`NotFound`, `InvalidArgument`),
success, and engine-failure kinds (corruption, I/O error) used to model
failures coming from the engine. -/
inductive Status where
  | ok
  | notFound
  | invalidArgument
  | corruption
  | ioError
deriving DecidableEq

/-- Mirror of `struct GetResults { int reference_count; rocksdb::Status status;
std::string stored_value; }`. -/
structure GetResults where
  reference_count : Int
  status : Status
  stored_value : List Nat
deriving DecidableEq

/-- Mirror of `struct SaveResults { int reference_count; rocksdb::Status status;
std::vector<unsigned char> storage_key; }`. -/
structure SaveResults where
  reference_count : Int
  status : Status
  storage_key : List Nat
deriving DecidableEq

/-- Mirror of `struct DeleteResults { int reference_count; rocksdb::Status
status; }`. -/
structure DeleteResults where
  reference_count : Int
  status : Status
deriving DecidableEq

/-- The engine database contents: each key maps to the raw record bytes
stored under it, if any. -/
abbrev Store := List Nat → Option (List Nat)

/-- The freshly created (empty) database. -/
def emptyStore : Store := fun _ => none

/-- Little-endian byte decomposition of the low 32 bits of a natural number:
the four bytes `memcpy(tmpbuf.data(), &count, sizeof(count))` writes. -/
def toBytesLE (n : Nat) : List Nat :=
  [n % 256, n / 256 % 256, n / 65536 % 256, n / 16777216 % 256]

/-- The natural number encoded by four little-endian bytes: what
`memcpy(&ref_count, c_string, sizeof(ref_count))` reads back, before sign
interpretation. -/
def fromBytesLE (b0 b1 b2 b3 : Nat) : Nat :=
  b0 + 256 * b1 + 65536 * b2 + 16777216 * b3

/-- The four record bytes holding a C++ `int` value `c`: its two's-complement
bit pattern, i.e. `c` reduced mod `2 ^ 32 = 4294967296`. -/
def intToLE4 (c : Int) : List Nat :=
  toBytesLE (c % 4294967296).toNat

/-- The signed 32-bit `int` denoted by a 4-byte group encoding the natural
number `n` (two's-complement interpretation; `2 ^ 31 = 2147483648`). -/
def leToInt (n : Nat) : Int :=
  if n < 2147483648 then (n : Int) else (n : Int) - 4294967296

/-- `CheckpointStorage::serializeCountAndValue` (lines 159-166): the record is
the four count bytes inserted at the front of the value, i.e. the 4-byte
count followed immediately by the raw value bytes. -/
def serializeCountAndValue (count : Int) (value : List Nat) : List Nat :=
  intToLE4 count ++ value

/-- `CheckpointStorage::parseCountAndValue` (lines 143-157).  The C++ takes
`substr(4, size - 1)`, which clamps to the remainder of the string, so the
value part is everything after the first four bytes.  An empty record gives
`(0, empty)`; records of length 1-3 are out of range for the `substr` (and
are never produced by the codec), mapped to `(0, empty)` here as well. -/
def parseCountAndValue (string_value : List Nat) : Int × List Nat :=
  match string_value with
  | b0 :: b1 :: b2 :: b3 :: rest => (leToInt (fromBytesLE b0 b1 b2 b3), rest)
  | _ => (0, [])

/-- The round-trip of an `int` through the 4-byte framing: store `c`,
read the signed value back. -/
def intWrap (c : Int) : Int :=
  leToInt (c % 4294967296).toNat

/-- The plain engine read `db->Get(read_options, key, &value)` performed by
`getStoredValue` (line 101).  It is issued directly on the database, outside
any transaction.  In the healthy-engine model it returns `ok` with the record
bytes when the key is present and `NotFound` otherwise. -/
def dbGet (db : Store) (key : List Nat) : Status × List Nat :=
  match db key with
  | some v => (Status.ok, v)
  | none => (Status.notFound, [])

/-- Body of `CheckpointStorage::getStoredValue` (lines 95-115) given the raw
engine `Get` outcome: on `ok` the record is parsed into count and value; on
ANY other engine status the result is `NotFound` with count `0` and empty
value (lines 108-114 construct a fresh `rocksdb::Status().NotFound()`
regardless of what the engine reported). -/
def getStoredValueResult (get_status : Status) (return_value : List Nat) :
    GetResults :=
  if get_status = Status.ok then
    { reference_count := (parseCountAndValue return_value).1
      status := get_status
      stored_value := (parseCountAndValue return_value).2 }
  else
    { reference_count := 0, status := Status.notFound, stored_value := [] }

/-- `CheckpointStorage::getStoredValue` against the healthy engine. -/
def getStoredValue (db : Store) (hash_key : List Nat) : GetResults :=
  getStoredValueResult (dbGet db hash_key).1 (dbGet db hash_key).2

/-- `CheckpointStorage::saveValueToDb` (lines 168-182): opens its own
transaction (`getTransaction`), `Put`s the record under the key, commits.
The transaction is scoped to this call alone.  In the healthy-engine model
the commit succeeds and the database gains the binding. -/
def saveValueToDb (db : Store) (value : List Nat) (key : List Nat) :
    Status × Store :=
  (Status.ok, fun k => if k = key then some value else db k)

/-- `CheckpointStorage::deleteValueFromDb` (lines 184-197): opens its own
transaction, `Delete`s the key, commits. -/
def deleteValueFromDb (db : Store) (key : List Nat) : Status × Store :=
  (Status.ok, fun k => if k = key then none else db k)

/-- Body of `CheckpointStorage::saveValueWithRefCount` (lines 128-141) given
the commit status reported by `saveValueToDb`: a non-ok commit is reported as
a fresh `NotFound` with count `0` (lines 136-140). -/
def saveValueWithRefCountResult (status : Status) (updated_ref_count : Int)
    (hash_key : List Nat) : SaveResults :=
  if status = Status.ok then
    { reference_count := updated_ref_count, status := status
      storage_key := hash_key }
  else
    { reference_count := 0, status := Status.notFound, storage_key := hash_key }

/-- `CheckpointStorage::saveValueWithRefCount` against the healthy engine:
serializes the count with the value and writes the record in a transaction of
its own. -/
def saveValueWithRefCount (db : Store) (updated_ref_count : Int)
    (hash_key : List Nat) (value : List Nat) : SaveResults × Store :=
  let updated_entry := serializeCountAndValue updated_ref_count value
  let r := saveValueToDb db updated_entry hash_key
  (saveValueWithRefCountResult r.1 updated_ref_count hash_key, r.2)

/-- `CheckpointStorage::incrementReference` (lines 40-52): read the current
record; if found, rewrite it with the count raised by one; otherwise return
the read's status with count `0`, leaving the database untouched. -/
def incrementReference (db : Store) (hash_key : List Nat) :
    SaveResults × Store :=
  let results := getStoredValue db hash_key
  if results.status = Status.ok then
    saveValueWithRefCount db (results.reference_count + 1) hash_key
      results.stored_value
  else
    ({ reference_count := 0, status := results.status, storage_key := hash_key },
     db)

/-- `CheckpointStorage::saveValue` (lines 54-70): read the current record; if
present with a different stored value, fail with `InvalidArgument` and count
`-1`; if present with the same value, rewrite with the count raised by one;
if absent, write a fresh record with count `1`. -/
def saveValue (db : Store) (value : List Nat) (hash_key : List Nat) :
    SaveResults × Store :=
  let results := getStoredValue db hash_key
  if results.status = Status.ok then
    if results.stored_value ≠ value then
      ({ reference_count := -1, status := Status.invalidArgument
         storage_key := hash_key }, db)
    else
      saveValueWithRefCount db (results.reference_count + 1) hash_key value
  else
    saveValueWithRefCount db 1 hash_key value

/-- `CheckpointStorage::deleteStoredValue` (lines 72-93): read the current
record; if absent, fail with `NotFound` and count `0`; if the count is below
2, physically delete the record and return count `0`; otherwise rewrite the
record with the count lowered by one and return the new count. -/
def deleteStoredValue (db : Store) (hash_key : List Nat) :
    DeleteResults × Store :=
  let results := getStoredValue db hash_key
  if results.status = Status.ok then
    if results.reference_count < 2 then
      let r := deleteValueFromDb db hash_key
      ({ reference_count := 0, status := r.1 }, r.2)
    else
      let updated_ref_count := results.reference_count - 1
      let r := saveValueWithRefCount db updated_ref_count hash_key
        results.stored_value
      ({ reference_count := updated_ref_count, status := r.1.status }, r.2)
  else
    ({ reference_count := 0, status := Status.notFound }, db)

/-- `CheckpointStorage::~CheckpointStorage` (lines 34-38): the destructor
closes the handle, resets it, and then calls
`DestroyDB(txn_db_path, rocksdb::Options())`, which destroys the database
and all of its contents on disk.  After close, no record remains. -/
def closeStorage (_db : Store) : Store := fun _ => none

/-- The write phase of `incrementReference`, taking as an argument the
`GetResults` produced by the earlier engine read.  The only transaction the
code opens (`getTransaction`, called from `saveValueToDb`) is scoped to this
phase; the read happened before it through a plain `db->Get`. -/
def incrementWritePhase (db : Store) (hash_key : List Nat)
    (results : GetResults) : SaveResults × Store :=
  if results.status = Status.ok then
    saveValueWithRefCount db (results.reference_count + 1) hash_key
      results.stored_value
  else
    ({ reference_count := 0, status := results.status, storage_key := hash_key },
     db)

/-- A mutating call against the store: `saveValue`, `incrementReference` or
`deleteStoredValue`, with its arguments. -/
inductive Op where
  | save (value : List Nat) (hash_key : List Nat)
  | increment (hash_key : List Nat)
  | deleteOp (hash_key : List Nat)

/-- The database state after one mutating call. -/
def applyOp (db : Store) : Op → Store
  | Op.save v k => (saveValue db v k).2
  | Op.increment k => (incrementReference db k).2
  | Op.deleteOp k => (deleteStoredValue db k).2

/-- The database state after a sequence of mutating calls, applied in
order. -/
def applyOps (db : Store) (ops : List Op) : Store :=
  ops.foldl applyOp db

/-- A store holding exactly one record: key `k`, value `v`, written count
`c`. -/
def singleRecord (k v : List Nat) (c : Int) : Store :=
  fun a => if a = k then some (serializeCountAndValue c v) else none

/-- Sample store: key `[1]` holds value `[2]` with count 1. -/
def store1 : Store := singleRecord [1] [2] 1

/-- Sample store: key `[1]` holds value `[9]` with count 3. -/
def store3 : Store := singleRecord [1] [9] 3

/-! Codec lemmas. -/

/-- Parsing inverts serialization up to the 32-bit wrap of the count. -/
theorem parse_serialize (c : Int) (v : List Nat) :
    parseCountAndValue (serializeCountAndValue c v) = (intWrap c, v) := by
  have h1 : 0 ≤ c % 4294967296 := Int.emod_nonneg c (by norm_num)
  have h2 : c % 4294967296 < 4294967296 := Int.emod_lt_of_pos c (by norm_num)
  have hm : (c % 4294967296).toNat < 4294967296 := by omega
  have hfb :
      fromBytesLE ((c % 4294967296).toNat % 256)
        ((c % 4294967296).toNat / 256 % 256)
        ((c % 4294967296).toNat / 65536 % 256)
        ((c % 4294967296).toNat / 16777216 % 256) =
        (c % 4294967296).toNat := by
    unfold fromBytesLE
    omega
  simp only [serializeCountAndValue, intToLE4, toBytesLE, List.cons_append,
    List.nil_append, parseCountAndValue, hfb, intWrap]

/-- The wrapped count is unchanged when it fits in a signed 32-bit integer. -/
theorem intWrap_eq_self (c : Int) (h1 : -2147483648 ≤ c)
    (h2 : c < 2147483648) : intWrap c = c := by
  unfold intWrap leToInt
  split_ifs with h <;> omega

/-- The wrap preserves the residue mod `2 ^ 32`. -/
theorem intWrap_emod (c : Int) :
    intWrap c % 4294967296 = c % 4294967296 := by
  unfold intWrap leToInt
  split_ifs with h <;> omega

/-- The wrapped count always lies in the signed 32-bit range (lower bound). -/
theorem intWrap_lb (c : Int) : -2147483648 ≤ intWrap c := by
  unfold intWrap leToInt
  split_ifs with h <;> omega

/-- The wrapped count always lies in the signed 32-bit range (upper bound). -/
theorem intWrap_ub (c : Int) : intWrap c < 2147483648 := by
  unfold intWrap leToInt
  split_ifs with h <;> omega

/-- Serialization only depends on the count's residue mod `2 ^ 32`. -/
theorem serialize_congr (a b : Int) (v : List Nat)
    (h : a % 4294967296 = b % 4294967296) :
    serializeCountAndValue a v = serializeCountAndValue b v := by
  simp only [serializeCountAndValue, intToLE4, h]

/-! Reduction lemmas for the operations against the healthy engine. -/

/-- Reading an absent key yields `NotFound` with count 0 and empty value. -/
theorem getStoredValue_none (db : Store) (k : List Nat) (h : db k = none) :
    getStoredValue db k =
      { reference_count := 0, status := Status.notFound, stored_value := [] } := by
  simp [getStoredValue, dbGet, h, getStoredValueResult]

/-- Reading a present key yields `ok` with the parsed count and value. -/
theorem getStoredValue_some (db : Store) (k rec : List Nat)
    (h : db k = some rec) :
    getStoredValue db k =
      { reference_count := (parseCountAndValue rec).1, status := Status.ok
        stored_value := (parseCountAndValue rec).2 } := by
  simp [getStoredValue, dbGet, h, getStoredValueResult]

/-- Against the healthy engine, `saveValueWithRefCount` reports the written
count with `ok` and binds the key to the framed record. -/
theorem saveValueWithRefCount_eq (db : Store) (c : Int) (k v : List Nat) :
    saveValueWithRefCount db c k v =
      ({ reference_count := c, status := Status.ok, storage_key := k },
       fun a => if a = k then some (serializeCountAndValue c v) else db a) := by
  simp [saveValueWithRefCount, saveValueToDb, saveValueWithRefCountResult]

/-! Saving the same value repeatedly: one step and its iteration. -/

/-- Saving a value at an absent key creates the single record with count 1. -/
theorem saveValue_fresh (k v : List Nat) :
    (saveValue emptyStore v k).2 = singleRecord k v 1 := by
  have hg := getStoredValue_none emptyStore k rfl
  have hs : (saveValue emptyStore v k).2 =
      fun a => if a = k then some (serializeCountAndValue 1 v) else
        emptyStore a := by
    simp [saveValue, hg, saveValueWithRefCount_eq]
  rw [hs]
  funext a
  by_cases ha : a = k <;> simp [singleRecord, emptyStore, ha]

/-- Saving the value already held under a key rewrites the record with the
written count raised by one (the increment is applied to the decoded count,
and the framing only keeps its low 32 bits, so the written counts advance by
one mod `2 ^ 32`). -/
theorem saveValue_existing (k v : List Nat) (c : Int) :
    (saveValue (singleRecord k v c) v k).2 = singleRecord k v (c + 1) := by
  have hrec : singleRecord k v c k = some (serializeCountAndValue c v) := by
    simp [singleRecord]
  have hg := getStoredValue_some _ _ _ hrec
  rw [parse_serialize] at hg
  have hs : (saveValue (singleRecord k v c) v k).2 =
      fun a => if a = k then
        some (serializeCountAndValue (intWrap c + 1) v)
      else singleRecord k v c a := by
    simp [saveValue, hg, saveValueWithRefCount_eq]
  rw [hs]
  funext a
  by_cases ha : a = k
  · have hcong : serializeCountAndValue (intWrap c + 1) v =
        serializeCountAndValue (c + 1) v := by
      refine serialize_congr _ _ v ?_
      have := intWrap_emod c
      omega
    simp [singleRecord, ha, hcong]
  · simp [singleRecord, ha]

/-- Unfolding the fold of `applyOps` over a first call. -/
theorem applyOps_cons (db : Store) (op : Op) (ops : List Op) :
    applyOps db (op :: ops) = applyOps (applyOp db op) ops := rfl

/-- Iterating Save of the same value `n` more times advances the written
count from `c` to `c + n`. -/
theorem applyOps_saves (k v : List Nat) : ∀ (n : Nat) (c : Int),
    applyOps (singleRecord k v c) (List.replicate n (Op.save v k)) =
      singleRecord k v (c + n) := by
  intro n
  induction n with
  | zero => intro c; simp [applyOps]
  | succ m ih =>
    intro c
    have h2 : applyOp (singleRecord k v c) (Op.save v k) =
        singleRecord k v (c + 1) := saveValue_existing k v c
    have harg : c + 1 + ((m : Nat) : Int) = c + (((m + 1 : Nat)) : Int) := by
      push_cast
      ring
    rw [List.replicate_succ, applyOps_cons, h2, ih (c + 1), harg]

/-! The well-formedness invariant on reachable stores. -/

/-- Well-formedness of the database after `n` mutating calls: every stored
record is a framed record whose written count lies between 1 and `n`. -/
def GoodStore (n : Nat) (db : Store) : Prop :=
  ∀ k rec, db k = some rec →
    ∃ c val, rec = serializeCountAndValue c val ∧ 1 ≤ c ∧ c ≤ (n : Int)

/-- Well-formedness is monotone in the call budget. -/
theorem goodStore_mono (n : Nat) (db : Store) (h : GoodStore n db) :
    GoodStore (n + 1) db := by
  intro k rec hrec
  obtain ⟨c, val, g1, g2, g3⟩ := h k rec hrec
  exact ⟨c, val, g1, g2, by omega⟩

/-- Rebinding one key to a framed record with a count in range preserves
well-formedness. -/
theorem goodStore_update (n : Nat) (db : Store) (k v : List Nat) (c : Int)
    (h : GoodStore n db) (h1 : 1 ≤ c) (h2 : c ≤ (n : Int) + 1) :
    GoodStore (n + 1)
      (fun a => if a = k then some (serializeCountAndValue c v) else db a) := by
  intro a rec hrec
  simp only [] at hrec
  by_cases ha : a = k
  · rw [if_pos ha] at hrec
    injection hrec with hrec
    exact ⟨c, v, hrec.symm, h1, by omega⟩
  · rw [if_neg ha] at hrec
    obtain ⟨c', val', g1, g2, g3⟩ := h a rec hrec
    exact ⟨c', val', g1, g2, by omega⟩

/-- Removing one key preserves well-formedness. -/
theorem goodStore_remove (n : Nat) (db : Store) (k : List Nat)
    (h : GoodStore n db) :
    GoodStore (n + 1) (fun a => if a = k then none else db a) := by
  intro a rec hrec
  simp only [] at hrec
  by_cases ha : a = k
  · rw [if_pos ha] at hrec
    exact Option.noConfusion hrec
  · rw [if_neg ha] at hrec
    obtain ⟨c', val', g1, g2, g3⟩ := h a rec hrec
    exact ⟨c', val', g1, g2, by omega⟩

/-- One mutating call preserves well-formedness, as long as the call budget
stays below `2 ^ 31` so that no stored count can overflow the signed 32-bit
range. -/
theorem goodStore_applyOp (n : Nat) (db : Store) (op : Op)
    (hn : (n : Int) ≤ 2147483647) (h : GoodStore n db) :
    GoodStore (n + 1) (applyOp db op) := by
  cases op with
  | save v k =>
    cases hdb : db k with
    | none =>
      have hg := getStoredValue_none db k hdb
      have he : applyOp db (Op.save v k) =
          fun a => if a = k then some (serializeCountAndValue 1 v) else
            db a := by
        simp [applyOp, saveValue, hg, saveValueWithRefCount_eq]
      rw [he]
      exact goodStore_update n db k v 1 h (by norm_num) (by omega)
    | some rec =>
      obtain ⟨c, val, g1, g2, g3⟩ := h k rec hdb
      subst g1
      have hg := getStoredValue_some db k _ hdb
      rw [parse_serialize] at hg
      rw [intWrap_eq_self c (by omega) (by omega)] at hg
      by_cases hv : val = v
      · subst hv
        have he : applyOp db (Op.save val k) =
            fun a => if a = k then
              some (serializeCountAndValue (c + 1) val) else db a := by
          simp [applyOp, saveValue, hg, saveValueWithRefCount_eq]
        rw [he]
        exact goodStore_update n db k val (c + 1) h (by omega) (by omega)
      · have hne : val ≠ v := hv
        have he : applyOp db (Op.save v k) = db := by
          simp [applyOp, saveValue, hg, hne]
        rw [he]
        exact goodStore_mono n db h
  | increment k =>
    cases hdb : db k with
    | none =>
      have hg := getStoredValue_none db k hdb
      have he : applyOp db (Op.increment k) = db := by
        simp [applyOp, incrementReference, hg]
      rw [he]
      exact goodStore_mono n db h
    | some rec =>
      obtain ⟨c, val, g1, g2, g3⟩ := h k rec hdb
      subst g1
      have hg := getStoredValue_some db k _ hdb
      rw [parse_serialize] at hg
      rw [intWrap_eq_self c (by omega) (by omega)] at hg
      have he : applyOp db (Op.increment k) =
          fun a => if a = k then
            some (serializeCountAndValue (c + 1) val) else db a := by
        simp [applyOp, incrementReference, hg, saveValueWithRefCount_eq]
      rw [he]
      exact goodStore_update n db k val (c + 1) h (by omega) (by omega)
  | deleteOp k =>
    cases hdb : db k with
    | none =>
      have hg := getStoredValue_none db k hdb
      have he : applyOp db (Op.deleteOp k) = db := by
        simp [applyOp, deleteStoredValue, hg]
      rw [he]
      exact goodStore_mono n db h
    | some rec =>
      obtain ⟨c, val, g1, g2, g3⟩ := h k rec hdb
      subst g1
      have hg := getStoredValue_some db k _ hdb
      rw [parse_serialize] at hg
      rw [intWrap_eq_self c (by omega) (by omega)] at hg
      by_cases hc : c < 2
      · have he : applyOp db (Op.deleteOp k) =
            fun a => if a = k then none else db a := by
          simp [applyOp, deleteStoredValue, hg, hc, deleteValueFromDb]
        rw [he]
        exact goodStore_remove n db k h
      · have he : applyOp db (Op.deleteOp k) =
            fun a => if a = k then
              some (serializeCountAndValue (c - 1) val) else db a := by
          simp [applyOp, deleteStoredValue, hg, hc, saveValueWithRefCount_eq]
        rw [he]
        exact goodStore_update n db k val (c - 1) h (by omega) (by omega)

/-- A sequence of mutating calls preserves well-formedness while the total
call budget stays within the signed 32-bit range. -/
theorem goodStore_applyOps (ops : List Op) : ∀ (db : Store) (n : Nat),
    GoodStore n db → (n : Int) + ops.length ≤ 2147483647 →
    GoodStore (n + ops.length) (applyOps db ops) := by
  induction ops with
  | nil =>
    intro db n h _
    simpa [applyOps] using h
  | cons op rest ih =>
    intro db n h hlen
    have hlen' : ((op :: rest).length : Int) = rest.length + 1 := by
      simp
    have h2 : GoodStore (n + 1) (applyOp db op) :=
      goodStore_applyOp n db op (by rw [hlen'] at hlen; omega) h
    have h3 := ih (applyOp db op) (n + 1) h2
      (by rw [hlen'] at hlen; push_cast; omega)
    have h4 : n + 1 + rest.length = n + (op :: rest).length := by
      simp [List.length_cons]
      omega
    rw [← h4]
    exact h3

/-! Claim theorems. -/

/-- C1 (violated by the code): the lookup of a mutating call and its commit do
NOT share one unit of work.  `incrementReference` is literally a plain engine
read (`getStoredValue`, a bare `db->Get`) followed by a write phase whose
transaction covers only the `Put` and its commit, so interleaving two
increments on the same count-1 record loses an update: the interleaved
execution leaves count 2 where the serial execution leaves count 3. -/
theorem increment_read_write_split_loses_update :
    (∀ (db : Store) (k : List Nat),
      incrementReference db k =
        incrementWritePhase db k (getStoredValue db k)) ∧
    (getStoredValue
        (incrementWritePhase (incrementReference store1 [1]).2 [1]
          (getStoredValue store1 [1])).2 [1]).reference_count = 2 ∧
    (getStoredValue
        (incrementReference (incrementReference store1 [1]).2 [1]).2
        [1]).reference_count = 3 := by
  refine ⟨fun db k => rfl, by decide, by decide⟩

/-- C2 (violated by the code): closing the store destroys the database.  A
record saved with reference count 1 is present before close and gone after,
because the destructor calls `DestroyDB` on the database path. -/
theorem close_destroys_saved_record :
    getStoredValue (saveValue emptyStore [7] [1]).2 [1] =
      { reference_count := 1, status := Status.ok, stored_value := [7] } ∧
    closeStorage (saveValue emptyStore [7] [1]).2 [1] = none ∧
    (getStoredValue (closeStorage (saveValue emptyStore [7] [1]).2) [1]).status =
      Status.notFound := by
  refine ⟨by decide, rfl, by decide⟩

/-- C3 counterexample: an engine Corruption on lookup is reported as NotFound,
and a failed commit (I/O error) is reported as NotFound with count 0 — the
engine status is not surfaced as the same error kind. -/
theorem engine_error_remap_counterexample :
    (getStoredValueResult Status.corruption []).status = Status.notFound ∧
    (getStoredValueResult Status.corruption []).status ≠ Status.corruption ∧
    (saveValueWithRefCountResult Status.ioError 5 [1]).status =
      Status.notFound ∧
    (saveValueWithRefCountResult Status.ioError 5 [1]).reference_count = 0 := by
  decide

/-- C3 amended: every non-ok engine status, whether from the lookup or from
the commit, is remapped to a fresh NotFound with zeroed result fields rather
than surfaced unchanged. -/
theorem engine_error_remapped_to_notFound (st : Status) (v : List Nat)
    (c : Int) (k : List Nat) (h : st ≠ Status.ok) :
    getStoredValueResult st v =
      { reference_count := 0, status := Status.notFound, stored_value := [] } ∧
    saveValueWithRefCountResult st c k =
      { reference_count := 0, status := Status.notFound, storage_key := k } := by
  constructor <;> simp [getStoredValueResult, saveValueWithRefCountResult, h]

/-- Witness for the amended C3 at a Corruption lookup and an I/O-error
commit. -/
theorem engine_error_remapped_to_notFound_witness :
    getStoredValueResult Status.corruption [1, 2] =
      { reference_count := 0, status := Status.notFound, stored_value := [] } ∧
    saveValueWithRefCountResult Status.ioError 7 [1] =
      { reference_count := 0, status := Status.notFound, storage_key := [1] } :=
  ⟨(engine_error_remapped_to_notFound Status.corruption [1, 2] 7 [1]
      (by decide)).1,
   (engine_error_remapped_to_notFound Status.ioError [1, 2] 7 [1]
      (by decide)).2⟩

/-- C4: starting from a state where the key is absent, Save succeeds with
reference count 1 and status ok, and a subsequent Get returns exactly the
saved value with count 1. -/
theorem save_then_get_roundtrip (db : Store) (k v : List Nat)
    (h : db k = none) :
    (saveValue db v k).1 =
      { reference_count := 1, status := Status.ok, storage_key := k } ∧
    getStoredValue (saveValue db v k).2 k =
      { reference_count := 1, status := Status.ok, stored_value := v } := by
  have hg := getStoredValue_none db k h
  have hs : saveValue db v k =
      ({ reference_count := 1, status := Status.ok, storage_key := k },
       fun a => if a = k then some (serializeCountAndValue 1 v) else db a) := by
    simp [saveValue, hg, saveValueWithRefCount_eq]
  refine ⟨by rw [hs], ?_⟩
  rw [hs]
  have h2 : (fun a => if a = k then some (serializeCountAndValue 1 v) else db a)
      k = some (serializeCountAndValue 1 v) := by simp
  rw [getStoredValue_some _ _ _ h2, parse_serialize]
  have hw : intWrap 1 = 1 := by decide
  simp [hw]

/-- Witness for C4 at the empty store, key `[1]`, value `[7]`. -/
theorem save_then_get_roundtrip_witness :
    (saveValue emptyStore [7] [1]).1 =
      { reference_count := 1, status := Status.ok, storage_key := [1] } ∧
    getStoredValue (saveValue emptyStore [7] [1]).2 [1] =
      { reference_count := 1, status := Status.ok, stored_value := [7] } :=
  save_then_get_roundtrip emptyStore [1] [7] rfl

/-- C5: Save on a present key with a different value fails with
InvalidArgument and count -1, and performs no mutation: the database is
unchanged and Get still returns the previously stored value and count. -/
theorem save_mismatch_no_mutation (db : Store) (k v val : List Nat) (c : Int)
    (hrec : db k = some (serializeCountAndValue c val)) (hne : val ≠ v) :
    (saveValue db v k).1 =
      { reference_count := -1, status := Status.invalidArgument
        storage_key := k } ∧
    (saveValue db v k).2 = db ∧
    getStoredValue (saveValue db v k).2 k =
      { reference_count := intWrap c, status := Status.ok
        stored_value := val } := by
  have hg := getStoredValue_some db k _ hrec
  rw [parse_serialize] at hg
  have hs : saveValue db v k =
      ({ reference_count := -1, status := Status.invalidArgument
         storage_key := k }, db) := by
    simp [saveValue, hg, hne]
  refine ⟨by rw [hs], by rw [hs], ?_⟩
  rw [hs, getStoredValue_some db k _ hrec, parse_serialize]

/-- Witness for C5: key `[1]` holds value `[2]`; saving `[3]` at it fails and
mutates nothing. -/
theorem save_mismatch_no_mutation_witness :
    (saveValue store1 [3] [1]).1 =
      { reference_count := -1, status := Status.invalidArgument
        storage_key := [1] } ∧
    (saveValue store1 [3] [1]).2 = store1 ∧
    getStoredValue (saveValue store1 [3] [1]).2 [1] =
      { reference_count := intWrap 1, status := Status.ok
        stored_value := [2] } :=
  save_mismatch_no_mutation store1 [1] [3] [2] 1 (by decide) (by decide)

/-- C6: Delete fails with NotFound on an absent key and changes nothing; when
the stored count is below 2 it physically removes the record and returns 0;
otherwise it lowers the count by one, keeps the value, and returns the new
count. -/
theorem delete_spec (db : Store) (k : List Nat) :
    (db k = none →
      deleteStoredValue db k =
        ({ reference_count := 0, status := Status.notFound }, db)) ∧
    (∀ (c : Int) (val : List Nat),
      db k = some (serializeCountAndValue c val) →
      (intWrap c < 2 →
        (deleteStoredValue db k).1 =
          { reference_count := 0, status := Status.ok } ∧
        (deleteStoredValue db k).2 k = none) ∧
      (2 ≤ intWrap c →
        (deleteStoredValue db k).1 =
          { reference_count := intWrap c - 1, status := Status.ok } ∧
        getStoredValue (deleteStoredValue db k).2 k =
          { reference_count := intWrap c - 1, status := Status.ok
            stored_value := val })) := by
  constructor
  · intro h
    have hg := getStoredValue_none db k h
    simp [deleteStoredValue, hg]
  · intro c val hrec
    have hg := getStoredValue_some db k _ hrec
    rw [parse_serialize] at hg
    constructor
    · intro hlt
      have hd : deleteStoredValue db k =
          ({ reference_count := 0, status := Status.ok },
           fun a => if a = k then none else db a) := by
        simp [deleteStoredValue, hg, hlt, deleteValueFromDb]
      rw [hd]
      exact ⟨rfl, by simp⟩
    · intro hge
      have hnl : ¬ intWrap c < 2 := by omega
      have hd : deleteStoredValue db k =
          ({ reference_count := intWrap c - 1, status := Status.ok },
           fun a => if a = k then
             some (serializeCountAndValue (intWrap c - 1) val) else db a) := by
        simp [deleteStoredValue, hg, hnl, saveValueWithRefCount_eq]
      rw [hd]
      refine ⟨rfl, ?_⟩
      have h2 : (fun a => if a = k then
          some (serializeCountAndValue (intWrap c - 1) val) else db a) k =
          some (serializeCountAndValue (intWrap c - 1) val) := by simp
      rw [getStoredValue_some _ _ _ h2, parse_serialize]
      have hw : intWrap (intWrap c - 1) = intWrap c - 1 := by
        have hl := intWrap_lb c
        have hu := intWrap_ub c
        exact intWrap_eq_self _ (by omega) (by omega)
      simp [hw]

/-- Witness for C6 covering all three branches: absent key, last reference,
and a count-3 record. -/
theorem delete_spec_witness :
    deleteStoredValue emptyStore [1] =
      ({ reference_count := 0, status := Status.notFound }, emptyStore) ∧
    ((deleteStoredValue store1 [1]).1 =
      { reference_count := 0, status := Status.ok } ∧
     (deleteStoredValue store1 [1]).2 [1] = none) ∧
    ((deleteStoredValue store3 [1]).1 =
      { reference_count := intWrap 3 - 1, status := Status.ok } ∧
     getStoredValue (deleteStoredValue store3 [1]).2 [1] =
      { reference_count := intWrap 3 - 1, status := Status.ok
        stored_value := [9] }) :=
  ⟨(delete_spec emptyStore [1]).1 rfl,
   ((delete_spec store1 [1]).2 1 [2] (by decide)).1 (by decide),
   ((delete_spec store3 [1]).2 3 [9] (by decide)).2 (by decide)⟩

/-- C7: on an absent key, IncrementReference and Delete each fail with
NotFound, return count 0, and leave the database unchanged: no record is
created. -/
theorem notFound_no_mutation (db : Store) (k : List Nat) (h : db k = none) :
    incrementReference db k =
      ({ reference_count := 0, status := Status.notFound, storage_key := k },
       db) ∧
    deleteStoredValue db k =
      ({ reference_count := 0, status := Status.notFound }, db) := by
  have hg := getStoredValue_none db k h
  constructor
  · simp [incrementReference, hg]
  · simp [deleteStoredValue, hg]

/-- Witness for C7 at the empty store, key `[1]`. -/
theorem notFound_no_mutation_witness :
    incrementReference emptyStore [1] =
      ({ reference_count := 0, status := Status.notFound, storage_key := [1] },
       emptyStore) ∧
    deleteStoredValue emptyStore [1] =
      ({ reference_count := 0, status := Status.notFound }, emptyStore) :=
  notFound_no_mutation emptyStore [1] rfl

/-- C8: a record is exactly the fixed 4-byte count followed immediately by
the raw value bytes, with no separator or length field, and parsing inverts
serialization for every representable count and every value, the empty value
included. -/
theorem codec_roundtrip (c : Int) (v : List Nat)
    (h1 : -2147483648 ≤ c) (h2 : c < 2147483648) :
    serializeCountAndValue c v = intToLE4 c ++ v ∧
    (intToLE4 c).length = 4 ∧
    parseCountAndValue (serializeCountAndValue c v) = (c, v) := by
  refine ⟨rfl, rfl, ?_⟩
  rw [parse_serialize, intWrap_eq_self c h1 h2]

/-- Witness for C8 at a negative count and the empty value. -/
theorem codec_roundtrip_witness :
    serializeCountAndValue (-5) [] = intToLE4 (-5) ++ [] ∧
    (intToLE4 (-5)).length = 4 ∧
    parseCountAndValue (serializeCountAndValue (-5) []) = (-5, []) :=
  codec_roundtrip (-5) [] (by norm_num) (by norm_num)

/-- C10: failures return sentinel counts: Save on a content mismatch returns
-1; IncrementReference and Delete on an absent key return 0; and Delete of
the last reference also returns 0, so the returned count alone cannot
distinguish a successful last-reference Delete from a failed one. -/
theorem sentinel_counts (db : Store) (k v val : List Nat) (c : Int) :
    (db k = some (serializeCountAndValue c val) → val ≠ v →
      (saveValue db v k).1.reference_count = -1 ∧
      (saveValue db v k).1.status = Status.invalidArgument) ∧
    (db k = none →
      (incrementReference db k).1.reference_count = 0 ∧
      (deleteStoredValue db k).1.reference_count = 0 ∧
      (deleteStoredValue db k).1.status = Status.notFound) ∧
    (db k = some (serializeCountAndValue 1 val) →
      (deleteStoredValue db k).1.reference_count = 0 ∧
      (deleteStoredValue db k).1.status = Status.ok) := by
  refine ⟨?_, ?_, ?_⟩
  · intro hrec hne
    have hg := getStoredValue_some db k _ hrec
    rw [parse_serialize] at hg
    constructor <;> simp [saveValue, hg, hne]
  · intro h
    have hg := getStoredValue_none db k h
    refine ⟨?_, ?_, ?_⟩ <;>
      simp [incrementReference, deleteStoredValue, hg]
  · intro hrec
    have hg := getStoredValue_some db k _ hrec
    rw [parse_serialize] at hg
    have hw : intWrap 1 = 1 := by decide
    rw [hw] at hg
    have hlt : (1 : Int) < 2 := by norm_num
    constructor <;> simp [deleteStoredValue, hg, deleteValueFromDb]

/-- Witness for C10 covering the mismatch, absent-key and last-reference
cases. -/
theorem sentinel_counts_witness :
    ((saveValue store1 [3] [1]).1.reference_count = -1 ∧
     (saveValue store1 [3] [1]).1.status = Status.invalidArgument) ∧
    ((incrementReference emptyStore [1]).1.reference_count = 0 ∧
     (deleteStoredValue emptyStore [1]).1.reference_count = 0 ∧
     (deleteStoredValue emptyStore [1]).1.status = Status.notFound) ∧
    ((deleteStoredValue store1 [1]).1.reference_count = 0 ∧
     (deleteStoredValue store1 [1]).1.status = Status.ok) :=
  ⟨(sentinel_counts store1 [1] [3] [2] 1).1 (by decide) (by decide),
   (sentinel_counts emptyStore [1] [3] [2] 1).2.1 rfl,
   (sentinel_counts store1 [1] [3] [2] 1).2.2 (by decide)⟩

/-- C9 counterexample: `2 ^ 31 = 2147483648` Save calls of the same value at
the same key, starting from the empty store, leave a physically present
record whose decoded reference count is `-2 ^ 31 = -2147483648`: the 32-bit
counter wraps past the signed maximum, so this reachable call sequence
violates the invariant that every stored record has count at least 1. -/
theorem refcount_invariant_counterexample :
    applyOps emptyStore (List.replicate 2147483648 (Op.save [2] [1])) [1] =
      some (serializeCountAndValue 2147483648 [2]) ∧
    (parseCountAndValue (serializeCountAndValue 2147483648 [2])).1 =
      -2147483648 := by
  constructor
  · have h0 : (2147483648 : Nat) = 2147483647 + 1 := by norm_num
    have h2 : applyOp emptyStore (Op.save [2] [1]) =
        singleRecord [1] [2] 1 := saveValue_fresh [1] [2]
    have h3 : (1 : Int) + ((2147483647 : Nat) : Int) = 2147483648 := by
      norm_num
    rw [h0, List.replicate_succ, applyOps_cons, h2, applyOps_saves, h3]
    simp [singleRecord]
  · have hp : parseCountAndValue (serializeCountAndValue 2147483648 [2]) =
        (intWrap 2147483648, [2]) := parse_serialize 2147483648 [2]
    rw [hp]
    show intWrap 2147483648 = -2147483648
    unfold intWrap leToInt
    split_ifs with h <;> omega

/-- C9 amended: for every sequence of at most `2 ^ 31 - 1` mutating calls
from the empty store — i.e. as long as the 32-bit counter cannot overflow —
every physically present record decodes to a reference count of at least 1:
a record whose count would reach 0 is physically deleted instead. -/
theorem refcount_invariant_bounded (ops : List Op) (k rec : List Nat)
    (hlen : ops.length ≤ 2147483647)
    (hrec : applyOps emptyStore ops k = some rec) :
    1 ≤ (parseCountAndValue rec).1 := by
  have h0 : GoodStore 0 emptyStore := by
    intro a r hr
    exact Option.noConfusion hr
  have hg := goodStore_applyOps ops emptyStore 0 h0 (by push_cast; omega)
  rw [Nat.zero_add] at hg
  obtain ⟨c, val, g1, g2, g3⟩ := hg k rec hrec
  subst g1
  have hp : (parseCountAndValue (serializeCountAndValue c val)).1 =
      intWrap c := by rw [parse_serialize]
  rw [hp, intWrap_eq_self c (by omega) (by omega)]
  exact g2

/-- Witness for the amended C9: the single-Save sequence at key `[1]`. -/
theorem refcount_invariant_bounded_witness :
    1 ≤ (parseCountAndValue (serializeCountAndValue 1 [2])).1 :=
  refcount_invariant_bounded [Op.save [2] [1]] [1]
    (serializeCountAndValue 1 [2]) (by norm_num) (by decide)

end CheckpointStorage
